import Mathlib

/-!
Verification development for the VibeHiring `ai_services` component
(`ai.py`, `main.py`).

Shallow embedding conventions:
* Every outbound network interaction (completion service, GitHub REST
  API, embedding service, audio-generation service) is modelled as an
  oracle value passed in as an argument: the pure control flow of the
  Python code around those calls is embedded faithfully.
* Python floats are modelled as `ℚ` where the code only performs
  division by constants, `min`, addition and comparisons (repository
  file scores, similarity scores), and as `ℝ` where `math.sqrt` is
  involved (`ChatBot.cosine_similarity`).
* JSON values produced by the code are modelled by the inductive
  `Json`; a message field that the code fills with `json.dumps(v)` is
  modelled as carrying the value `v` itself (`json.dumps` is injective
  on this domain, so no information is lost).
* Python's stable `list.sort` is modelled by a stable insertion sort
  (`sortDesc`); any two stable sorts under the same total preorder
  produce the same list.
-/

/-! ## JSON values -/

/-- A JSON value, as produced by the Python code (`dict` / `list` /
`str` / numbers / booleans / `None`). -/
inductive Json where
  | null : Json
  | bool (b : Bool) : Json
  | num (q : ℚ) : Json
  | str (s : String) : Json
  | arr (elems : List Json) : Json
  | obj (fields : List (String × Json)) : Json

/-! ## Analyzer: tool catalog and dispatch (`ai.py` lines 210-340) -/

/-- The four tool names declared in `Analyzer.self.tools` (and in
`Analyzer.TOOL_DISPATCH`). -/
def catalogToolNames : List String :=
  ["github_repository_extractor", "vibe_coding_percentage_checker",
   "github_status_checker", "cv_appropriateness_evaluator"]

/-- The callable attributes of an `Analyzer` instance that
`getattr(self, tool_name, None)` can resolve to, i.e. the methods
defined on the class (`ai.py` lines 293-559).  Non-callable attributes
(`instructions`, `messages`, `tools`, `job_description`,
`IMPORTANT_NAMES`, `TOOL_DISPATCH`, ...) fail the
`method and callable(method)` test exactly as absent names do.  Dunder
methods inherited from `object` are outside the model. -/
def analyzerCallableAttrs : List String :=
  ["analyze", "handle_tool_call", "github_repository_extractor",
   "github_repo_important_sample", "vibe_coding_percentage_checker",
   "github_status_checker", "cv_appropriateness_evaluator"]

/-- A tool call requested by the model: `tool_call.function.name`,
parsed `tool_call.function.arguments`, and `tool_call.id`. -/
structure ToolCall where
  name : String
  args : Json
  id : String

/-- An assistant message carrying tool calls (the `choice.message`
appended to history when `finish_reason == "tool_calls"`). -/
structure AssistantMsg where
  content : String
  tool_calls : List ToolCall

/-- A message on the `Analyzer.messages` list. -/
inductive Msg where
  | user (content : String) : Msg
  | assistant (m : AssistantMsg) : Msg
  | tool (content : Json) (tool_call_id : String) : Msg

/-- Outcome of invoking one resolved tool method: either the returned
JSON-serializable value, or the exception message caught by
`except Exception as e`. -/
inductive ToolOutcome where
  | ok (v : Json) : ToolOutcome
  | exn (msg : String) : ToolOutcome

/-- One iteration of the loop body of `Analyzer.handle_tool_call`
(`ai.py` lines 319-331): resolve the tool name via
`getattr`/`callable`, run it (outcome supplied by the oracle `exec`),
and produce the JSON value that is serialized into the tool message's
content. -/
def dispatchTool (exec : String → Json → ToolOutcome) (name : String) (args : Json) : Json :=
  if name ∈ analyzerCallableAttrs then
    match exec name args with
    | .ok v => v
    | .exn m => .obj [("error", .str m)]
  else
    .obj [("error", .str ("Unknown tool: " ++ name))]

/-- `Analyzer.handle_tool_call` (`ai.py` lines 316-340): one tool-role
result message per requested call, in request order, correlated by
`tool_call.id`. -/
def handle_tool_call (exec : String → Json → ToolOutcome) (m : AssistantMsg) : List Msg :=
  m.tool_calls.map fun tc => Msg.tool (dispatchTool exec tc.name tc.args) tc.id

/-- The completion service's answer for one round: either
`finish_reason == "tool_calls"` together with the assistant message, or
a final answer with its content. -/
inductive CompletionResp where
  | toolCalls (m : AssistantMsg) : CompletionResp
  | final (content : String) : CompletionResp

/-- `Analyzer.analyze` (`ai.py` lines 293-314), embedded with explicit
fuel.  The Python loop `while not done:` has no round cap, so the
embedding returns `none` when the fuel runs out before a round without
tool calls; `some c` means the loop returned content `c`.  The oracle
maps the current message history to the completion response of the
round. -/
def analyzeFuel (oracle : List Msg → CompletionResp)
    (exec : String → Json → ToolOutcome) : Nat → List Msg → Option String
  | 0, _ => none
  | n + 1, msgs =>
    match oracle msgs with
    | .final c => some c
    | .toolCalls m =>
        analyzeFuel oracle exec n ((msgs ++ [Msg.assistant m]) ++ handle_tool_call exec m)

/-! ## Stable descending sort (model of Python `list.sort(reverse=True)`) -/

/-- Insert `x` into `l`, skipping past every element strictly greater
than `x` (under `lt`) and stopping before the first element `y` with
`¬ lt x y`.  Earlier-inserted elements therefore come first among
ties, which is exactly Python's stable descending sort order. -/
def insDesc (lt : α → α → Prop) [DecidableRel lt] (x : α) : List α → List α
  | [] => [x]
  | y :: ys => if lt x y then y :: insDesc lt x ys else x :: y :: ys

/-- Stable descending insertion sort.  Python's `list.sort` is stable,
so for any total preorder it produces the same list as this model. -/
def sortDesc (lt : α → α → Prop) [DecidableRel lt] : List α → List α
  | [] => []
  | x :: xs => insDesc lt x (sortDesc lt xs)

/-! ## Repository Importance Sampler (`ai.py` lines 353-416) -/

/-- `Analyzer.IMPORTANT_NAMES` (`ai.py` lines 111-121). -/
def IMPORTANT_NAMES : List String :=
  ["main", "app", "core", "model", "engine", "utils", "agent", "service", "controller"]

/-- `Analyzer.IGNORE_PATH_PARTS` (`ai.py` lines 123-133). -/
def IGNORE_PATH_PARTS : List String :=
  ["test", "tests", "docs", "example", "demo", "dist", "build",
   "__pycache__", "node_modules"]

/-- `Analyzer.COMMON_EXTENSIONS` (`ai.py` lines 135-153). -/
def COMMON_EXTENSIONS : List String :=
  [".py", ".js", ".ts", ".java", ".kt", ".c", ".cpp", ".h", ".cs",
   ".go", ".rs", ".swift", ".rb", ".php", ".sh", ".dart", ".scala"]

/-- `needle` occurs at the head of `hay`. -/
def charsStartWith : List Char → List Char → Bool
  | [], _ => true
  | _ :: _, [] => false
  | a :: as, b :: bs => a = b && charsStartWith as bs

/-- `needle` occurs somewhere in `hay` (Python's `needle in hay` on
strings). -/
def charsContain (needle : List Char) : List Char → Bool
  | [] => needle.isEmpty
  | c :: rest => charsStartWith needle (c :: rest) || charsContain needle rest

/-- Python `needle in hay` for strings. -/
def strContains (hay needle : String) : Bool :=
  charsContain needle.data hay.data

/-- Python `hay.endswith(suffix)`. -/
def strEndsWith (hay suffix : String) : Bool :=
  charsStartWith suffix.data.reverse hay.data.reverse

/-- Python `path.lower()`, modelled on the character list
(`Char.toLower` per character — adequate for the ASCII repository
paths the sampler handles). -/
def strToLower (s : String) : String :=
  ⟨s.data.map Char.toLower⟩

/-- One entry of the fetched repository tree (`r.json()["tree"]`):
`f["path"]`, `f["type"]`, and `f.get("size", 0)`. -/
structure RepoFile where
  path : String
  type : String
  size : Nat
deriving DecidableEq

/-- The saturating size bonus `min(f.get("size", 0) / 5000, 3)`
(`ai.py` line 399). -/
def sizeBonus (size : Nat) : ℚ :=
  min ((size : ℚ) / 5000) 3

/-- The score of a kept file (`ai.py` lines 396-399): `+3` if the
lowercased path contains any important name token, plus the saturating
size bonus.  `pathLower` is the already-lowercased path. -/
def fileScore (pathLower : String) (size : Nat) : ℚ :=
  (if IMPORTANT_NAMES.any fun n => strContains pathLower n then 3 else 0) + sizeBonus size

/-- The filter of `ai.py` lines 385-394: keep blob entries whose
lowercased path ends in one of the extensions (when the extensions
tuple is non-empty, matching Python's truthiness test
`if extensions and not path.endswith(...)`) and contains no ignored
fragment. -/
def keepFile (extensions : List String) (f : RepoFile) : Bool :=
  f.type = "blob" &&
    (extensions.isEmpty || extensions.any fun e => strEndsWith (strToLower f.path) e) &&
    !(IGNORE_PATH_PARTS.any fun x => strContains (strToLower f.path) x)

/-- The `candidates` list built by the loop of `ai.py` lines 384-401,
in tree-enumeration order: `(score, f["path"])` for every kept file.
Note the tuple stores the original-case path. -/
def candidatesOf (extensions : List String) (files : List RepoFile) : List (ℚ × String) :=
  (files.filter (keepFile extensions)).map fun f => (fileScore (strToLower f.path) f.size, f.path)

/-- Python's tuple comparison `(score, path) < (score', path')`:
lexicographic on the score, then on the path string. -/
def candLt (a b : ℚ × String) : Prop :=
  a.1 < b.1 ∨ (a.1 = b.1 ∧ a.2 < b.2)

instance : DecidableRel candLt := fun a b => by
  unfold candLt; infer_instance

/-- `candidates.sort(reverse=True)` followed by
`[p for _, p in candidates[:max_files]]` (`ai.py` lines 403-404): the
paths selected for content fetching.  (The surrounding network I/O of
`github_repo_important_sample` — branch probing, README and content
fetches — is external and not part of this pure selection model.) -/
def importantSampleSelect (extensions : List String) (files : List RepoFile)
    (max_files : Nat) : List String :=
  ((sortDesc candLt (candidatesOf extensions files)).take max_files).map Prod.snd

/-- Follows the spec's words, for comparison with the code: sort
descending by score with ties broken by original enumeration order
(i.e. a stable descending sort keyed on the score alone), then take the
first `max_files` paths. -/
def specTieBreakSelect (extensions : List String) (files : List RepoFile)
    (max_files : Nat) : List String :=
  ((sortDesc (fun a b : ℚ × String => a.1 < b.1) (candidatesOf extensions files)).take
      max_files).map Prod.snd

/-! ## RAG Retrieval Engine (`ai.py` lines 920-968) -/

/-- A candidate record as seen by the retrieval logic: an identifying
payload plus the optional `embedding` field.  `none` models an absent
(or non-list) `embedding` value; `some []` models an empty list, which
is falsy in Python and therefore also treated as not embedded. -/
structure CandRec where
  payload : Nat
  embedding : Option (List ℚ)
deriving DecidableEq

/-- The test applied to every record both by
`has_embeddings = any(c.get("embedding") and isinstance(..., list) ...)`
(`ai.py` lines 959-962) and by the skip in `_retrieve`
(`if not emb or not isinstance(emb, list): continue`, lines 932-934):
the record carries a non-empty list embedding. -/
def hasEmb (c : CandRec) : Bool :=
  match c.embedding with
  | some l => !l.isEmpty
  | none => false

/-- `ChatBot._retrieve` (`ai.py` lines 920-939).  The query embedding
comes from an external embedding-service call, so the similarity score
of each embedded record is supplied by the oracle `sim` (in the code,
`sim c = cosine_similarity(query_embedding, c["embedding"])`).
`scored.sort(key=lambda x: x[0], reverse=True)` is a stable descending
sort keyed on the similarity alone. -/
def retrieveSel (sim : CandRec → ℚ) (candidates_data : List CandRec) (top_k : Nat) :
    List CandRec :=
  if candidates_data.isEmpty then []
  else
    let scored := (candidates_data.filter hasEmb).map fun c => (sim c, c)
    ((sortDesc (fun a b : ℚ × CandRec => a.1 < b.1) scored).take top_k).map Prod.snd

/-- The candidate-selection step of `ChatBot.reply`
(`ai.py` lines 958-968): retrieve the top 10 when at least one record
is embedded, otherwise fall back to the first 20 records in caller
order. -/
def replySelect (sim : CandRec → ℚ) (candidates_data : List CandRec) : List CandRec :=
  if candidates_data.any hasEmb then retrieveSel sim candidates_data 10
  else candidates_data.take 20

/-! ## `ChatBot.cosine_similarity` (`ai.py` lines 865-873) -/

/-- `sum(x * y for x, y in zip(a, b))`. -/
def dotL (a b : List ℝ) : ℝ :=
  (List.zipWith (fun x y => x * y) a b).sum

/-- `sum(x * x for x in a)`. -/
def sumSq (a : List ℝ) : ℝ :=
  (a.map fun x => x * x).sum

/-- `ChatBot.cosine_similarity`, with Python floats modelled as exact
reals: `norm_a = math.sqrt(sum(x*x))`, return `0.0` when either norm is
zero, else `dot / (norm_a * norm_b)`. -/
noncomputable def cosine_similarity (a b : List ℝ) : ℝ :=
  if Real.sqrt (sumSq a) = 0 ∨ Real.sqrt (sumSq b) = 0 then 0
  else dotL a b / (Real.sqrt (sumSq a) * Real.sqrt (sumSq b))

/-! ## Interview Session State Machine (`ai.py` lines 562-807) -/

/-- One entry of `conversation_history`:
`{"role": ..., "text": ...}`. -/
structure Turn where
  role : String
  text : String
deriving DecidableEq

/-- `VoiceInterviewer.VOICES` (`ai.py` lines 572-591). -/
def VOICES : List String :=
  ["NATF0", "NATF1", "NATF2", "NATF3", "NATM0", "NATM1", "NATM2", "NATM3",
   "VARF0", "VARF1", "VARF2", "VARF3", "VARF4",
   "VARM0", "VARM1", "VARM2", "VARM3", "VARM4"]

/-- The mutable state of a `VoiceInterviewer` instance. -/
structure VoiceState where
  job_description : String
  voice : String
  conversation_history : List Turn
deriving DecidableEq

/-- `VoiceInterviewer.__init__` (`ai.py` lines 609-622): an invalid
voice id is silently replaced by `"NATF2"`, history starts empty. -/
def mkVoiceInterviewer (job_description voice : String) : VoiceState :=
  { job_description := job_description
    voice := if voice ∈ VOICES then voice else "NATF2"
    conversation_history := [] }

/-- Outcome of the outbound PersonaPlex call in
`process_candidate_audio`: a 200 response with its parsed fields
(`result.get("audio", {}).get("url")` when the audio field is a dict,
the `text` field defaulted to `""`, `duration`, `seed`), a non-200
response, `requests.Timeout`, or any other exception. -/
inductive AudioCallOutcome where
  | ok (audioUrl : Option String) (text : String) (duration : Option ℚ) (seed : Option ℚ) :
      AudioCallOutcome
  | httpError (status : Nat) (body : String) : AudioCallOutcome
  | timeout : AudioCallOutcome
  | exn (msg : String) : AudioCallOutcome

/-- The dict returned by `process_candidate_audio`.  A key the code
omits or sets to `None` is modelled as `none`. -/
structure AudioResult where
  audio_url : Option String
  text : Option String
  duration : Option ℚ
  seed : Option ℚ
  error : Option String
deriving DecidableEq

/-- `VoiceInterviewer.process_candidate_audio` (`ai.py` lines 632-721)
as a state transition.  The prompt assembled from the last six history
turns is sent to the external service and does not influence the local
state change, which depends only on the call's outcome: on a 200
response the returned text is appended to history as an interviewer
turn if and only if it is non-empty (`if response_text:`); every
failure path returns an error dict and leaves the state untouched. -/
def process_candidate_audio (outcome : AudioCallOutcome) (st : VoiceState) :
    AudioResult × VoiceState :=
  match outcome with
  | .ok audioUrl text duration seed =>
      let history := if text = "" then st.conversation_history
        else st.conversation_history ++ [{ role := "interviewer", text := text }]
      ({ audio_url := audioUrl, text := some text, duration := duration, seed := seed,
         error := none },
       { st with conversation_history := history })
  | .httpError status body =>
      ({ audio_url := none, text := none, duration := none, seed := none,
         error := some ("FAL API error: " ++ toString status ++ " - " ++ body) }, st)
  | .timeout =>
      ({ audio_url := none, text := none, duration := none, seed := none,
         error := some "Voice processing timed out. Please try again." }, st)
  | .exn msg =>
      ({ audio_url := none, text := none, duration := none, seed := none,
         error := some ("Voice processing error: " ++ msg) }, st)

/-- `VoiceInterviewer.add_candidate_transcript` (`ai.py` lines 723-730). -/
def add_candidate_transcript (st : VoiceState) (text : String) : VoiceState :=
  { st with conversation_history :=
      st.conversation_history ++ [{ role := "candidate", text := text }] }

/-- Outcome of the completion call and JSON decode inside
`evaluate_interview`: the (fence-stripped) content parsed as JSON, or
it failed to parse (`json.JSONDecodeError`) with the stripped content,
or the call raised (`except Exception`). -/
inductive EvalOutcome where
  | parsed (d : Json) : EvalOutcome
  | unparsed (content : String) : EvalOutcome
  | exn (msg : String) : EvalOutcome

/-- `VoiceInterviewer.evaluate_interview` (`ai.py` lines 736-807).
Returns the evaluation dict together with a flag recording whether the
completion service was called.  An empty conversation history returns
the explicit no-history error before any client is even constructed;
a parse failure degrades to
`{"overall_score": 50, "summary": ..., "recommendation": "maybe"}`;
any other exception becomes an `{"error": ...}` dict. -/
def evaluate_interview (outcome : EvalOutcome) (st : VoiceState) : Json × Bool :=
  if st.conversation_history = [] then
    (.obj [("error", .str "No conversation history to evaluate")], false)
  else
    match outcome with
    | .parsed d => (d, true)
    | .unparsed content =>
        (.obj [("overall_score", .num 50),
               ("summary", .str (if content = "" then "Could not parse evaluation" else content)),
               ("recommendation", .str "maybe")], true)
    | .exn msg => (.obj [("error", .str ("Evaluation failed: " ++ msg))], true)

/-! ## Interview endpoints and the process-wide session map
(`main.py` lines 13, 137-241) -/

/-- The process-wide `_interview_sessions` dict, keyed by externally
supplied session ids (`main.py` line 13).  Python `dict` lookup is
application; `del` maps the key to `none`. -/
def SessionMap : Type :=
  String → Option VoiceState

/-- Store (or overwrite) the session object for a key, as endpoint
handlers do when they mutate the stored `VoiceInterviewer`. -/
def SessionMap.store (m : SessionMap) (sid : String) (st : Option VoiceState) : SessionMap :=
  fun k => if k = sid then st else m k

/-- Response of the `/interview/respond` endpoint (`main.py` lines
137-179): a 400 on a missing field, a 404 when the session id does not
resolve, or the 200 payload assembled from the `process_candidate_audio`
result. -/
inductive RespondResp where
  | badRequest (msg : String) : RespondResp
  | notFound (msg : String) : RespondResp
  | ok (session_id : String) (interviewer_audio_url : Option String)
      (interviewer_text : Option String) (duration : Option ℚ)
      (error : Option String) (turn_count : Nat) : RespondResp
deriving DecidableEq

/-- `interview_respond` (`main.py` lines 137-179).  Inputs are the
already-`.strip()`-ed request fields; `if candidate_text:` appends the
manual transcript before the audio round-trip, whose outcome is
oracle-supplied. -/
def interview_respond (outcome : AudioCallOutcome) (m : SessionMap)
    (session_id audio_url candidate_text : String) : RespondResp × SessionMap :=
  if session_id = "" then (.badRequest "session_id is required", m)
  else if audio_url = "" then (.badRequest "audio_url is required", m)
  else
    match m session_id with
    | none => (.notFound "Interview session not found. Start one first.", m)
    | some st =>
        let st1 := if candidate_text = "" then st else add_candidate_transcript st candidate_text
        let res := process_candidate_audio outcome st1
        (.ok session_id res.1.audio_url res.1.text res.1.duration res.1.error
            res.2.conversation_history.length,
         m.store session_id (some res.2))

/-- Response of the `/interview/evaluate` endpoint (`main.py` lines
182-213). -/
inductive EvaluateResp where
  | badRequest (msg : String) : EvaluateResp
  | notFound (msg : String) : EvaluateResp
  | ok (evaluation : Json) (conversation : List Turn) : EvaluateResp

/-- `interview_evaluate` (`main.py` lines 182-213): resolve the
session, evaluate it, and delete the session entry
(`del _interview_sessions[session_id]`) before returning. -/
def interview_evaluate (outcome : EvalOutcome) (m : SessionMap) (session_id : String) :
    EvaluateResp × SessionMap :=
  if session_id = "" then (.badRequest "session_id is required", m)
  else
    match m session_id with
    | none => (.notFound "Interview session not found.", m)
    | some st =>
        (.ok (evaluate_interview outcome st).1 st.conversation_history,
         m.store session_id none)

/-- Response of the `/interview/history` endpoint (`main.py` lines
216-241). -/
inductive HistoryResp where
  | badRequest (msg : String) : HistoryResp
  | notFound (msg : String) : HistoryResp
  | ok (conversation : List Turn) (turn_count : Nat) : HistoryResp
deriving DecidableEq

/-- `interview_history` (`main.py` lines 216-241): read-only lookup. -/
def interview_history (m : SessionMap) (session_id : String) : HistoryResp :=
  if session_id = "" then .badRequest "session_id is required"
  else
    match m session_id with
    | none => .notFound "Interview session not found."
    | some st => .ok st.conversation_history st.conversation_history.length

/-! ## Concrete values used by witnesses and counterexamples -/

/-- A concrete tool executor: every resolved method call returns the
string `"ran"`. -/
def execDemo : String → Json → ToolOutcome :=
  fun _ _ => .ok (.str "ran")

/-- An assistant message requesting one tool call named `analyze` —
not one of the four catalog tools, but a callable attribute of the
`Analyzer` instance. -/
def msgDemoAnalyze : AssistantMsg :=
  { content := "", tool_calls := [{ name := "analyze", args := .obj [], id := "call-1" }] }

/-- An assistant message requesting one tool call with a name that is
neither a catalog tool nor any attribute of the `Analyzer`. -/
def msgDemoUnknown : AssistantMsg :=
  { content := "", tool_calls := [{ name := "frobnicate", args := .null, id := "id9" }] }

/-- A completion oracle that immediately returns a final answer. -/
def oracleFinalDone : List Msg → CompletionResp :=
  fun _ => .final "done"

/-- Two kept files with identical scores, distinct paths. -/
def demoFiles : List RepoFile :=
  [{ path := "a.py", type := "blob", size := 0 },
   { path := "b.py", type := "blob", size := 0 }]

/-- A session state with one recorded turn. -/
def stDemo : VoiceState :=
  { job_description := "jd", voice := "NATF2",
    conversation_history := [{ role := "candidate", text := "hi" }] }

/-- A session state with empty history. -/
def stEmpty : VoiceState :=
  { job_description := "jd", voice := "NATF2", conversation_history := [] }

/-- A session map holding exactly the session `"s1"`. -/
def mapDemo : SessionMap :=
  fun k => if k = "s1" then some stDemo else none

/-- A candidate record carrying an embedding. -/
def candEmb : CandRec :=
  { payload := 1, embedding := some [1] }

/-- A candidate record without an embedding. -/
def candNoEmb : CandRec :=
  { payload := 2, embedding := none }

/-! ## Lemmas about the stable descending sort -/

theorem insDesc_perm (lt : α → α → Prop) [DecidableRel lt] (x : α) :
    ∀ l : List α, (insDesc lt x l).Perm (x :: l)
  | [] => by simp [insDesc]
  | y :: ys => by
    by_cases h : lt x y
    · simp only [insDesc, if_pos h]
      exact ((insDesc_perm lt x ys).cons y).trans (List.Perm.swap x y ys)
    · simp [insDesc, h]

theorem sortDesc_perm (lt : α → α → Prop) [DecidableRel lt] :
    ∀ l : List α, (sortDesc lt l).Perm l
  | [] => List.Perm.refl []
  | x :: xs => (insDesc_perm lt x (sortDesc lt xs)).trans ((sortDesc_perm lt xs).cons x)

theorem insDesc_pairwise (lt : α → α → Prop) [DecidableRel lt]
    (hasymm : ∀ a b, lt a b → ¬ lt b a)
    (hntrans : ∀ a b c, ¬ lt a b → ¬ lt b c → ¬ lt a c) (x : α) :
    ∀ {l : List α}, List.Pairwise (fun a b => ¬ lt a b) l →
      List.Pairwise (fun a b => ¬ lt a b) (insDesc lt x l)
  | [], _ => by simp [insDesc]
  | y :: ys, h => by
    rcases List.pairwise_cons.mp h with ⟨hy, hys⟩
    by_cases hxy : lt x y
    · simp only [insDesc, if_pos hxy]
      refine List.pairwise_cons.mpr ⟨?_, insDesc_pairwise lt hasymm hntrans x hys⟩
      intro z hz
      rcases List.mem_cons.mp ((insDesc_perm lt x ys).mem_iff.mp hz) with hzx | hz
      · exact hzx ▸ hasymm x y hxy
      · exact hy z hz
    · simp only [insDesc, if_neg hxy]
      refine List.pairwise_cons.mpr ⟨?_, h⟩
      intro z hz
      rcases List.mem_cons.mp hz with rfl | hz
      · exact hxy
      · exact hntrans x y z hxy (hy z hz)

theorem sortDesc_pairwise (lt : α → α → Prop) [DecidableRel lt]
    (hasymm : ∀ a b, lt a b → ¬ lt b a)
    (hntrans : ∀ a b c, ¬ lt a b → ¬ lt b c → ¬ lt a c) :
    ∀ l : List α, List.Pairwise (fun a b => ¬ lt a b) (sortDesc lt l)
  | [] => List.Pairwise.nil
  | x :: xs =>
      insDesc_pairwise lt hasymm hntrans x (sortDesc_pairwise lt hasymm hntrans xs)

/-! ## Lemmas about `dotL`, `sumSq` and `cosine_similarity` -/

theorem sumSq_cons (x : ℝ) (xs : List ℝ) : sumSq (x :: xs) = x * x + sumSq xs := by
  simp [sumSq]

theorem dotL_cons (x y : ℝ) (xs ys : List ℝ) :
    dotL (x :: xs) (y :: ys) = x * y + dotL xs ys := by
  simp [dotL]

theorem sumSq_nonneg (a : List ℝ) : 0 ≤ sumSq a := by
  induction a with
  | nil => simp [sumSq]
  | cons x xs ih => rw [sumSq_cons]; nlinarith [mul_self_nonneg x]

theorem dotL_self (a : List ℝ) : dotL a a = sumSq a := by
  induction a with
  | nil => rfl
  | cons x xs ih => rw [dotL_cons, sumSq_cons, ih]

theorem quad_nonneg (a b : List ℝ) (t : ℝ) :
    0 ≤ sumSq a * (t * t) + 2 * dotL a b * t + sumSq b := by
  induction a generalizing b with
  | nil =>
    simp only [sumSq, List.map_nil, List.sum_nil, dotL, List.zipWith_nil_left, zero_mul,
      mul_zero, zero_add, mul_zero, zero_mul, add_zero]
    simpa using sumSq_nonneg b
  | cons x xs ih =>
    cases b with
    | nil =>
      simp only [dotL, List.zipWith_nil_right, List.sum_nil, sumSq, List.map_nil,
        mul_zero, zero_mul, add_zero]
      exact mul_nonneg (sumSq_nonneg (x :: xs)) (mul_self_nonneg t)
    | cons y ys =>
      have h1 := ih ys
      have h2 : 0 ≤ (x * t + y) * (x * t + y) := mul_self_nonneg _
      rw [sumSq_cons, sumSq_cons, dotL_cons]
      nlinarith [h1, h2]

theorem dot_sq_le (a b : List ℝ) : dotL a b ^ 2 ≤ sumSq a * sumSq b := by
  have h := discrim_le_zero (a := sumSq a) (b := 2 * dotL a b) (c := sumSq b)
    (fun t => quad_nonneg a b t)
  rw [discrim] at h
  nlinarith [h]

theorem abs_dot_le (a b : List ℝ) :
    |dotL a b| ≤ Real.sqrt (sumSq a) * Real.sqrt (sumSq b) := by
  rw [← Real.sqrt_sq_eq_abs, ← Real.sqrt_mul (sumSq_nonneg a)]
  exact Real.sqrt_le_sqrt (dot_sq_le a b)

/-! ## Order lemmas for the Python tuple comparison -/

theorem candLt_asymm (a b : ℚ × String) : candLt a b → ¬ candLt b a := by
  unfold candLt
  rintro (h | ⟨he, hs⟩)
  · rintro (h2 | ⟨he2, _⟩)
    · exact lt_asymm h h2
    · exact (ne_of_gt h) he2
  · rintro (h2 | ⟨_, hs2⟩)
    · rw [he] at h2; exact lt_irrefl _ h2
    · exact lt_asymm hs hs2

theorem candLt_negtrans (a b c : ℚ × String) :
    ¬ candLt a b → ¬ candLt b c → ¬ candLt a c := by
  unfold candLt
  intro hab hbc hac
  push_neg at hab hbc
  obtain ⟨hab1, hab2⟩ := hab
  obtain ⟨hbc1, hbc2⟩ := hbc
  rcases hac with h | ⟨he, hs⟩
  · exact absurd (lt_of_lt_of_le (lt_of_lt_of_le h hbc1) hab1) (lt_irrefl a.1)
  · have hb : b.1 = a.1 := le_antisymm hab1 (he ▸ hbc1)
    have hc : c.1 = b.1 := le_antisymm hbc1 (hb.trans he).le
    have h1 : b.2 ≤ a.2 := hab2 hb.symm
    have h2 : c.2 ≤ b.2 := hbc2 hc.symm
    exact absurd (lt_of_lt_of_le (lt_of_lt_of_le hs h2) h1) (lt_irrefl a.2)

/-! ## Claim C1 — the orchestration loop has no round cap -/

/-- C1: against a completion service that requests tool calls in every
round, `Analyzer.analyze` never terminates — no amount of fuel makes
the embedded loop return, and in particular no "tool-loop-exceeded"
error is ever produced (the code has no round cap at all).  The second
conjunct shows the part of the claim the code does satisfy: on the
first round whose response carries no tool calls, the loop immediately
returns that response's content. -/
theorem c1_loop_unbounded (f : List Msg → AssistantMsg)
    (exec : String → Json → ToolOutcome) :
    (∀ n msgs, analyzeFuel (fun ms => .toolCalls (f ms)) exec n msgs = none) ∧
    (∀ oracle msgs c n, oracle msgs = CompletionResp.final c →
      analyzeFuel oracle exec (n + 1) msgs = some c) := by
  constructor
  · intro n
    induction n with
    | zero => intro msgs; rfl
    | succ k ih => intro msgs; simp only [analyzeFuel]; exact ih _
  · intro oracle msgs c n h
    simp only [analyzeFuel, h]

/-- C1 witness: a concrete first-round final answer is returned as is. -/
theorem c1_loop_unbounded_witness :
    analyzeFuel oracleFinalDone execDemo 1 [] = some "done" :=
  (c1_loop_unbounded (fun _ => msgDemoAnalyze) execDemo).2 oracleFinalDone [] "done" 0 rfl

/-! ## Claim C2 — unknown-tool dispatch -/

/-- C2 counterexample: the tool name `analyze` is not one of the four
catalog tool names, yet `handle_tool_call` does not produce the
`{"error": "Unknown tool: analyze"}` result for it — dispatch is
`getattr(self, tool_name, None)` plus a `callable` test, so the
`Analyzer` method `analyze` is resolved and invoked instead. -/
theorem c2_unknown_tool_counterexample :
    "analyze" ∉ catalogToolNames ∧
    handle_tool_call execDemo msgDemoAnalyze =
      [Msg.tool (.str "ran") "call-1"] ∧
    handle_tool_call execDemo msgDemoAnalyze ≠
      [Msg.tool (.obj [("error", .str "Unknown tool: analyze")]) "call-1"] := by
  refine ⟨by decide, rfl, ?_⟩
  intro h
  rw [show handle_tool_call execDemo msgDemoAnalyze = [Msg.tool (.str "ran") "call-1"]
    from rfl] at h
  simp at h

/-- C2 amended: for every tool call whose name is not a callable
attribute of the `Analyzer` instance, the corresponding result message
(same position, in request order) is a tool-role message carrying
`{"error": "Unknown tool: <name>"}` correlated to that call's id;
exactly one result per call is produced, and the loop does not abort —
after a tool-call round `analyze` continues with the results appended
to the history. -/
theorem c2_unknown_tool_amended (exec : String → Json → ToolOutcome)
    (m : AssistantMsg) (i : Nat) (tc : ToolCall)
    (htc : m.tool_calls[i]? = some tc) (hname : tc.name ∉ analyzerCallableAttrs) :
    (handle_tool_call exec m).length = m.tool_calls.length ∧
    (handle_tool_call exec m)[i]? =
      some (Msg.tool (.obj [("error", .str ("Unknown tool: " ++ tc.name))]) tc.id) ∧
    ∀ oracle n msgs, oracle msgs = CompletionResp.toolCalls m →
      analyzeFuel oracle exec (n + 1) msgs =
        analyzeFuel oracle exec n ((msgs ++ [Msg.assistant m]) ++ handle_tool_call exec m) := by
  refine ⟨List.length_map _ _, ?_, ?_⟩
  · rw [handle_tool_call, List.getElem?_map, htc]
    simp [dispatchTool, hname]
  · intro oracle n msgs h
    simp only [analyzeFuel, h]

/-- C2 amended witness: a concrete unknown name yields the unknown-tool
error message at the matching position. -/
theorem c2_unknown_tool_amended_witness :
    (handle_tool_call execDemo msgDemoUnknown)[0]? =
      some (Msg.tool (.obj [("error", .str "Unknown tool: frobnicate")]) "id9") :=
  (c2_unknown_tool_amended execDemo msgDemoUnknown 0
    { name := "frobnicate", args := .null, id := "id9" } rfl (by decide)).2.1

/-! ## Claim C3 — sorting and selection in the sampler -/

/-- C3 counterexample: two kept files with equal scores.  The code's
`candidates.sort(reverse=True)` compares the whole `(score, path)`
tuples, so the score tie is broken by the path string in descending
order (`b.py` before `a.py`), not by the original enumeration order
(`a.py` before `b.py`) as the claim states. -/
theorem c3_tie_break_counterexample :
    importantSampleSelect COMMON_EXTENSIONS demoFiles 1 = ["b.py"] ∧
    specTieBreakSelect COMMON_EXTENSIONS demoFiles 1 = ["a.py"] ∧
    importantSampleSelect COMMON_EXTENSIONS demoFiles 1 ≠
      specTieBreakSelect COMMON_EXTENSIONS demoFiles 1 := by
  have hlt : ("a.py" : String) < "b.py" := String.lt_iff_toList_lt.mpr (by decide)
  have hconda :
      (IMPORTANT_NAMES.any fun n => strContains (strToLower "a.py") n) = false := rfl
  have hcondb :
      (IMPORTANT_NAMES.any fun n => strContains (strToLower "b.py") n) = false := rfl
  have ha : fileScore (strToLower "a.py") 0 = 0 := by
    unfold fileScore
    rw [hconda]
    norm_num [sizeBonus, min_def]
  have hb : fileScore (strToLower "b.py") 0 = 0 := by
    unfold fileScore
    rw [hcondb]
    norm_num [sizeBonus, min_def]
  have hc : candidatesOf COMMON_EXTENSIONS demoFiles =
      [(fileScore (strToLower "a.py") 0, "a.py"),
       (fileScore (strToLower "b.py") 0, "b.py")] := rfl
  have hc' : candidatesOf COMMON_EXTENSIONS demoFiles =
      [((0 : ℚ), "a.py"), ((0 : ℚ), "b.py")] := by rw [hc, ha, hb]
  have hsort : sortDesc candLt [((0 : ℚ), "a.py"), ((0 : ℚ), "b.py")] =
      [((0 : ℚ), "b.py"), ((0 : ℚ), "a.py")] := by
    have hclt : candLt ((0 : ℚ), "a.py") ((0 : ℚ), "b.py") := Or.inr ⟨rfl, hlt⟩
    simp only [sortDesc, insDesc]
    rw [if_pos hclt]
  have hsort2 :
      sortDesc (fun a b : ℚ × String => a.1 < b.1)
          [((0 : ℚ), "a.py"), ((0 : ℚ), "b.py")] =
        [((0 : ℚ), "a.py"), ((0 : ℚ), "b.py")] := by
    simp only [sortDesc, insDesc]
    rw [if_neg (lt_irrefl (0 : ℚ))]
  have h1 : importantSampleSelect COMMON_EXTENSIONS demoFiles 1 = ["b.py"] := by
    unfold importantSampleSelect
    rw [hc', hsort]
    rfl
  have h2 : specTieBreakSelect COMMON_EXTENSIONS demoFiles 1 = ["a.py"] := by
    unfold specTieBreakSelect
    rw [hc', hsort2]
    rfl
  refine ⟨h1, h2, ?_⟩
  rw [h1, h2]
  decide

/-- C3 amended: the kept candidates are sorted in descending order of
score with ties between equal scores broken by descending lexicographic
order of the original path string (Python tuple comparison under
`reverse=True`), and the first `max_files` paths of that sorted list
are selected; at most `max_files` paths are selected. -/
theorem c3_sort_select_amended (extensions : List String) (files : List RepoFile)
    (max_files : Nat) :
    ∃ sorted : List (ℚ × String),
      sorted.Perm (candidatesOf extensions files) ∧
      List.Pairwise (fun a b => b.1 < a.1 ∨ (a.1 = b.1 ∧ b.2 ≤ a.2)) sorted ∧
      importantSampleSelect extensions files max_files =
        (sorted.take max_files).map Prod.snd ∧
      (importantSampleSelect extensions files max_files).length ≤ max_files := by
  refine ⟨sortDesc candLt (candidatesOf extensions files),
    sortDesc_perm _ _, ?_, rfl, ?_⟩
  · have h := sortDesc_pairwise candLt candLt_asymm candLt_negtrans
      (candidatesOf extensions files)
    refine h.imp ?_
    intro a b hnab
    unfold candLt at hnab
    push_neg at hnab
    obtain ⟨h1, h2⟩ := hnab
    rcases eq_or_lt_of_le h1 with heq | hlt
    · exact Or.inr ⟨heq.symm, h2 heq.symm⟩
    · exact Or.inl hlt
  · unfold importantSampleSelect
    rw [List.length_map, List.length_take]
    exact min_le_left _ _

/-! ## Claim C4 — retrieval selection in `ChatBot.reply` -/

/-- C4: when at least one candidate record carries an embedding,
`ChatBot.reply` selects at most 10 records, all drawn from the records
that carry embeddings; when none does, it selects exactly the first 20
records (or all, if fewer) in caller-supplied order. -/
theorem c4_reply_selection (sim : CandRec → ℚ) (cands : List CandRec) :
    ((∃ c ∈ cands, hasEmb c = true) →
      (replySelect sim cands).length ≤ 10 ∧
      ∀ c ∈ replySelect sim cands, c ∈ cands ∧ hasEmb c = true) ∧
    ((∀ c ∈ cands, hasEmb c = false) → replySelect sim cands = cands.take 20) := by
  constructor
  · intro hex
    have hany : cands.any hasEmb = true := by
      rcases hex with ⟨c, hc, hemb⟩
      exact List.any_eq_true.mpr ⟨c, hc, hemb⟩
    have hne : ¬ cands.isEmpty = true := by
      rcases hex with ⟨c, hc, _⟩
      cases cands
      · cases hc
      · simp [List.isEmpty]
    rw [replySelect, if_pos hany, retrieveSel, if_neg hne]
    constructor
    · rw [List.length_map, List.length_take]
      exact min_le_left _ _
    · intro c hcmem
      rcases List.mem_map.mp hcmem with ⟨p, hp, rfl⟩
      have hp1 : p ∈ sortDesc (fun a b : ℚ × CandRec => a.1 < b.1)
          ((cands.filter hasEmb).map fun c => (sim c, c)) := List.mem_of_mem_take hp
      have hp2 : p ∈ (cands.filter hasEmb).map fun c => (sim c, c) :=
        (sortDesc_perm _ _).mem_iff.mp hp1
      rcases List.mem_map.mp hp2 with ⟨c0, hc0, rfl⟩
      have hf := List.mem_filter.mp hc0
      exact ⟨hf.1, hf.2⟩
  · intro hall
    have hany : cands.any hasEmb = false := by
      rw [List.any_eq_false]
      intro c hc
      rw [hall c hc]
      exact Bool.false_ne_true
    rw [replySelect, hany]
    rfl

/-- C4 witness: one embedded record yields a selection of length at
most 10; one unembedded record falls back to the 20-record prefix. -/
theorem c4_reply_selection_witness :
    (replySelect (fun _ => 0) [candEmb]).length ≤ 10 ∧
    replySelect (fun _ => 0) [candNoEmb] = [candNoEmb].take 20 :=
  ⟨((c4_reply_selection (fun _ => 0) [candEmb]).1 (by decide)).1,
   (c4_reply_selection (fun _ => 0) [candNoEmb]).2 (by decide)⟩

/-! ## Claim C5 — cosine similarity -/

/-- C5: `ChatBot.cosine_similarity` returns 0 whenever either vector
has zero norm; otherwise it returns `dot(a,b)/(‖a‖·‖b‖)`; for every
vector of non-zero norm `cosine_similarity a a = 1`; and the result
always lies in `[-1, 1]`. -/
theorem c5_cosine_similarity (a b : List ℝ) :
    ((Real.sqrt (sumSq a) = 0 ∨ Real.sqrt (sumSq b) = 0) → cosine_similarity a b = 0) ∧
    (Real.sqrt (sumSq a) ≠ 0 → Real.sqrt (sumSq b) ≠ 0 →
      cosine_similarity a b = dotL a b / (Real.sqrt (sumSq a) * Real.sqrt (sumSq b))) ∧
    (Real.sqrt (sumSq a) ≠ 0 → cosine_similarity a a = 1) ∧
    (-1 ≤ cosine_similarity a b ∧ cosine_similarity a b ≤ 1) := by
  refine ⟨?_, ?_, ?_, ?_⟩
  · intro h
    rw [cosine_similarity, if_pos h]
  · intro h1 h2
    rw [cosine_similarity, if_neg (by tauto)]
  · intro h1
    rw [cosine_similarity, if_neg (by tauto), dotL_self,
      Real.mul_self_sqrt (sumSq_nonneg a)]
    have hA : sumSq a ≠ 0 := fun h0 => h1 (by rw [h0, Real.sqrt_zero])
    exact div_self hA
  · by_cases h : Real.sqrt (sumSq a) = 0 ∨ Real.sqrt (sumSq b) = 0
    · rw [cosine_similarity, if_pos h]
      norm_num
    · rw [cosine_similarity, if_neg h]
      push_neg at h
      have hpa : 0 < Real.sqrt (sumSq a) :=
        lt_of_le_of_ne (Real.sqrt_nonneg _) (Ne.symm h.1)
      have hpb : 0 < Real.sqrt (sumSq b) :=
        lt_of_le_of_ne (Real.sqrt_nonneg _) (Ne.symm h.2)
      have hprod : 0 < Real.sqrt (sumSq a) * Real.sqrt (sumSq b) := mul_pos hpa hpb
      have habs := abs_le.mp (abs_dot_le a b)
      constructor
      · rw [le_div_iff₀ hprod]
        linarith [habs.1]
      · rw [div_le_one hprod]
        exact habs.2

/-- C5 witness: a zero vector gives similarity 0; a non-zero vector
with itself gives similarity 1. -/
theorem c5_cosine_similarity_witness :
    cosine_similarity [(1 : ℝ)] [(0 : ℝ)] = 0 ∧
    cosine_similarity [(1 : ℝ)] [(1 : ℝ)] = 1 := by
  constructor
  · apply (c5_cosine_similarity [(1 : ℝ)] [(0 : ℝ)]).1
    right
    have h0 : sumSq [(0 : ℝ)] = 0 := by simp [sumSq]
    rw [h0, Real.sqrt_zero]
  · apply (c5_cosine_similarity [(1 : ℝ)] [(1 : ℝ)]).2.2.1
    have h1 : sumSq [(1 : ℝ)] = 1 := by simp [sumSq]
    rw [h1, Real.sqrt_one]
    exact one_ne_zero

/-! ## Claim C6 — the saturating size bonus -/

/-- C6: the size bonus `min(size_bytes/5000, 3)` is monotonically
non-decreasing in `size_bytes` and saturates at 3 (0 ↦ 0, 15000 ↦ 3,
50000 ↦ 3); consequently a file's total score is non-decreasing in its
byte size. -/
theorem c6_size_bonus (pathLower : String) (s1 s2 : Nat) :
    (s1 ≤ s2 → sizeBonus s1 ≤ sizeBonus s2) ∧
    sizeBonus 0 = 0 ∧ sizeBonus 15000 = 3 ∧ sizeBonus 50000 = 3 ∧
    (s1 ≤ s2 → fileScore pathLower s1 ≤ fileScore pathLower s2) := by
  have hmono : ∀ t1 t2 : Nat, t1 ≤ t2 → sizeBonus t1 ≤ sizeBonus t2 := by
    intro t1 t2 h
    unfold sizeBonus
    have hdiv : (t1 : ℚ) / 5000 ≤ (t2 : ℚ) / 5000 := by
      gcongr
    exact min_le_min hdiv le_rfl
  refine ⟨hmono s1 s2, ?_, ?_, ?_, fun h => ?_⟩
  · norm_num [sizeBonus, min_def]
  · norm_num [sizeBonus, min_def]
  · norm_num [sizeBonus, min_def]
  · unfold fileScore
    exact add_le_add_left (hmono s1 s2 h) _

/-- C6 witness: concrete sizes 1000 ≤ 2000. -/
theorem c6_size_bonus_witness :
    sizeBonus 1000 ≤ sizeBonus 2000 ∧ fileScore "x" 1000 ≤ fileScore "x" 2000 :=
  ⟨(c6_size_bonus "x" 1000 2000).1 (by norm_num),
   (c6_size_bonus "x" 1000 2000).2.2.2.2 (by norm_num)⟩

/-! ## Claim C7 — failure paths of `process_candidate_audio` -/

/-- C7: a timeout of the outbound call makes
`process_candidate_audio` return the transient-error dict and leaves
the session state — in particular the conversation history — exactly
as it was; a non-200 response or any other exception likewise returns
a structured error dict with the state untouched. -/
theorem c7_failure_preserves_history (st : VoiceState) (status : Nat) (body msg : String) :
    process_candidate_audio .timeout st =
      ({ audio_url := none, text := none, duration := none, seed := none,
         error := some "Voice processing timed out. Please try again." }, st) ∧
    process_candidate_audio (.httpError status body) st =
      ({ audio_url := none, text := none, duration := none, seed := none,
         error := some ("FAL API error: " ++ toString status ++ " - " ++ body) }, st) ∧
    process_candidate_audio (.exn msg) st =
      ({ audio_url := none, text := none, duration := none, seed := none,
         error := some ("Voice processing error: " ++ msg) }, st) :=
  ⟨rfl, rfl, rfl⟩

/-! ## Claim C8 — evaluating an empty interview -/

/-- C8: on a session whose conversation history is empty,
`evaluate_interview` returns exactly the
`{"error": "No conversation history to evaluate"}` dict — no numeric
score and no recommendation — and the completion service is never
called (the `Bool` component of the embedding records whether the
completion call was made). -/
theorem c8_evaluate_empty_history (st : VoiceState) (outcome : EvalOutcome)
    (h : st.conversation_history = []) :
    evaluate_interview outcome st =
      (.obj [("error", .str "No conversation history to evaluate")], false) := by
  rw [evaluate_interview.eq_def, if_pos h]

/-- C8 witness: concrete empty-history session. -/
theorem c8_evaluate_empty_history_witness :
    evaluate_interview (.exn "boom") stEmpty =
      (.obj [("error", .str "No conversation history to evaluate")], false) :=
  c8_evaluate_empty_history stEmpty (.exn "boom") rfl

/-! ## Claim C9 — an evaluated session id is no longer resolvable -/

/-- C9: once `interview_evaluate` has returned for a resolvable
session id, that entry is removed from the process-wide session map,
and every subsequent `respond`, `evaluate`, or `history` operation on
the same id yields the "session not found" error (leaving the map
unchanged). -/
theorem c9_evaluated_session_unresolvable (m : SessionMap) (sid : String)
    (st : VoiceState) (evalOut : EvalOutcome) (hsid : sid ≠ "")
    (hlook : m sid = some st) :
    ((interview_evaluate evalOut m sid).2 sid = none) ∧
    (∀ audioOut audio_url candidate_text, audio_url ≠ "" →
      interview_respond audioOut (interview_evaluate evalOut m sid).2 sid audio_url
          candidate_text =
        (.notFound "Interview session not found. Start one first.",
         (interview_evaluate evalOut m sid).2)) ∧
    (∀ evalOut2,
      interview_evaluate evalOut2 (interview_evaluate evalOut m sid).2 sid =
        (.notFound "Interview session not found.",
         (interview_evaluate evalOut m sid).2)) ∧
    interview_history (interview_evaluate evalOut m sid).2 sid =
      .notFound "Interview session not found." := by
  have hm : (interview_evaluate evalOut m sid).2 = m.store sid none := by
    rw [interview_evaluate.eq_def, if_neg hsid, hlook]
  have hnone : (interview_evaluate evalOut m sid).2 sid = none := by
    rw [hm, SessionMap.store, if_pos rfl]
  refine ⟨hnone, ?_, ?_, ?_⟩
  · intro audioOut audio_url candidate_text hau
    rw [interview_respond.eq_def, if_neg hsid, if_neg hau, hnone]
  · intro evalOut2
    rw [interview_evaluate.eq_def, if_neg hsid, hnone]
  · rw [interview_history.eq_def, if_neg hsid, hnone]

/-- C9 witness: a concrete one-session map. -/
theorem c9_evaluated_session_unresolvable_witness :
    ((interview_evaluate (.exn "x") mapDemo "s1").2 "s1" = none) ∧
    interview_history (interview_evaluate (.exn "x") mapDemo "s1").2 "s1" =
      .notFound "Interview session not found." :=
  ⟨(c9_evaluated_session_unresolvable mapDemo "s1" stDemo (.exn "x")
      (by decide) rfl).1,
   (c9_evaluated_session_unresolvable mapDemo "s1" stDemo (.exn "x")
      (by decide) rfl).2.2.2⟩

/-! ## Claim C10 — frame conditions of a successful audio round -/

/-- C10: on a 200 response, an interviewer turn is appended to the
conversation history if and only if the returned text is non-empty
(nothing is appended for empty text), and the rest of the session
state — job description and voice — is never modified by
`process_candidate_audio`, whatever the outcome. -/
theorem c10_success_appends_iff_nonempty (st : VoiceState) (audioUrl : Option String)
    (text : String) (duration seed : Option ℚ) (outcome : AudioCallOutcome) :
    ((process_candidate_audio outcome st).2.job_description = st.job_description ∧
     (process_candidate_audio outcome st).2.voice = st.voice) ∧
    ((process_candidate_audio (.ok audioUrl text duration seed) st).2.conversation_history =
        st.conversation_history ↔ text = "") ∧
    (text ≠ "" →
      (process_candidate_audio (.ok audioUrl text duration seed) st).2.conversation_history =
        st.conversation_history ++ [{ role := "interviewer", text := text }]) := by
  refine ⟨?_, ?_, ?_⟩
  · cases outcome <;> exact ⟨rfl, rfl⟩
  · by_cases h : text = ""
    · simp [process_candidate_audio, h]
    · simp [process_candidate_audio, h]
  · intro h
    simp [process_candidate_audio, h]

/-- C10 witness: a concrete non-empty interviewer reply is appended. -/
theorem c10_success_appends_iff_nonempty_witness :
    (process_candidate_audio (.ok none "Hello" none none) stDemo).2.conversation_history =
      stDemo.conversation_history ++ [{ role := "interviewer", text := "Hello" }] :=
  (c10_success_appends_iff_nonempty stDemo none "Hello" none none .timeout).2.2
    (by decide)
